import Mathlib

/-!
Shallow embedding of the change-detection and sync-resumption engine of the
yugioh-db repository (src/card.py, src/meta.py, src/download_session.py).

File contents are byte lists; the SHA-256 digest is abstracted as a parameter
`hash : Bytes → Bytes` of every definition that hashes, so each theorem holds
for the real digest function. Filesystem reads, HTTP responses and the clock
are passed in explicitly as environment values.
-/

/-- Byte strings: file and response bodies. -/
abbrev Bytes := List Nat

/-- Translation of compute_file_hash (src/card.py:9): SHA-256 of the whole
file content (the chunked reading in the source is an incremental computation
of the same digest). -/
def compute_file_hash (hash : Bytes → Bytes) (content : Bytes) : Bytes :=
  hash content

/-- Translation of compute_partial_hash (src/card.py:19): SHA-256 of the
first byte_count bytes of the file. -/
def compute_partial_hash (hash : Bytes → Bytes) (content : Bytes) (byte_count : Nat) : Bytes :=
  hash (content.take byte_count)

/-- Environment of one verify_image_with_range_request call: what the local
filesystem and the remote endpoint would answer. storedHash is none when
reading the hash file raises; rangeResponse is none when the range request
raises, otherwise the HTTP status and the returned body. remoteContent is the
full remote resource (the range request body is server-chosen). -/
structure VerifyEnv where
  localExists : Bool
  hashExists : Bool
  storedHash : Option Bytes
  localContent : Bytes
  remoteContent : Bytes
  rangeResponse : Option (Nat × Bytes)
deriving DecidableEq

/-- Translation of verify_image_with_range_request (src/card.py:28).
Returns (needs_download, verified_full_hash). -/
def verify_image_with_range_request (hash : Bytes → Bytes) (env : VerifyEnv)
    (force_full_check : Bool) : Bool × Bool :=
  if !(env.localExists && env.hashExists) then (true, false)
  else
    match env.storedHash with
    | none => (true, false)
    | some stored_hash =>
      if force_full_check then
        let current_hash := compute_file_hash hash env.localContent
        if current_hash ≠ stored_hash then (true, true)
        else (false, true)
      else
        match env.rangeResponse with
        | none => (true, false)
        | some (status, partial_content) =>
          if status ≠ 200 ∧ status ≠ 206 then (true, false)
          else
            let partial_hash := hash partial_content
            let stored_partial_hash :=
              compute_partial_hash hash env.localContent partial_content.length
            if partial_hash ≠ stored_partial_hash then (true, false)
            else (false, false)

/-- One card's JSON payload: the id field, the name field, and the remaining
key/value pairs kept opaque. -/
structure CardPayload where
  id : Int
  name : String
  rest : List (String × String)
deriving DecidableEq

namespace Card

/-- Translation of Card.__sync_card_info_id (src/card.py:94). stored is the
JSON currently at the identity's info.json path (none when absent). Returns
the stored JSON after the call and whether a write happened. The source
computes modified_json (the payload with card_id substituted into the id
field) but then compares and writes self.__json, the unmodified payload;
the translation reproduces that. -/
def sync_card_info_id (payload : CardPayload) (card_id : Int)
    (stored : Option CardPayload) : Option CardPayload × Bool :=
  let modified_json : CardPayload := { payload with id := card_id }
  match stored with
  | some existing_card =>
    if existing_card = payload then (some existing_card, false)
    else (some payload, true)
  | none => (some payload, true)

/-- The four paths Card.__download_image_async touches: the final image file,
its hash sidecar, and the two temporary files. -/
structure FS where
  image : Option Bytes
  hashFile : Option Bytes
  tempImage : Option Bytes
  tempHash : Option Bytes
deriving DecidableEq

/-- The write sequence of Card.__download_image_async (src/card.py:160-175):
step 0 writes the body to image_path.tmp, step 1 writes the digest to
hash_path.tmp, step 2 renames image_path.tmp to image_path, step 3 renames
hash_path.tmp to hash_path. -/
def downloadStep (hash : Bytes → Bytes) (content : Bytes) : Nat → FS → FS
  | 0, fs => { fs with tempImage := some content }
  | 1, fs => { fs with tempHash := some (hash content) }
  | 2, fs => { fs with image := fs.tempImage, tempImage := none }
  | 3, fs => { fs with hashFile := fs.tempHash, tempHash := none }
  | _, fs => fs

/-- Runs the first k steps of the write sequence. -/
def runSteps (hash : Bytes → Bytes) (content : Bytes) (k : Nat) (fs : FS) : FS :=
  (List.range k).foldl (fun s i => downloadStep hash content i s) fs

/-- The except branch of Card.__download_image_async (src/card.py:180-188):
remove both temporary files if they exist. -/
def cleanupTemps (fs : FS) : FS :=
  { fs with tempImage := none, tempHash := none }

/-- Translation of the download-and-write part of Card.__download_image_async
(src/card.py:149-188), entered when the verifier answered needs_download and
the GET returned 200. failAfter none means no exception: all four steps run
and the call returns True. failAfter (some k) means an exception is raised
once exactly the first k steps have run; the except branch removes the
temporary files and the call returns False. -/
def download_image_async (hash : Bytes → Bytes) (content : Bytes)
    (failAfter : Option Nat) (fs : FS) : FS × Bool :=
  match failAfter with
  | none => (runSteps hash content 4 fs, true)
  | some k => (cleanupTemps (runSteps hash content (min k 4) fs), false)

end Card

/-- The resume_state object written by Meta.save_resume_state
(src/meta.py:112-118). -/
structure ResumeState where
  last_processed_index : Int
  api_hash_at_resume : String
  target_updates : Int
  updates_found : Int
  session_started : String
deriving DecidableEq

/-- One audit entry as written by Meta.update (src/meta.py:160-171). Fields
are Option because stored JSON may lack keys, which the reading code probes
with dict.get. -/
structure RunRecord where
  triggered_time : Option String
  completed_time : Option String
  time_taken : Option String
  cards_processed : Option Int
  cards_found : Option Int
  cards_updated : Option Int
  updated_cards : Option (List String)
  api_response_hash : Option String
  api_unchanged : Option Bool
  full_hash_verifications : Option Int
deriving DecidableEq, Inhabited

/-- Shapes of the persisted meta.json document: the legacy bare array of run
records, the current object with resume_state and audit_log, or an unreadable
document (json.load raises). -/
inductive MetaData where
  | legacy (log : List RunRecord)
  | modern (resume : Option ResumeState) (log : List RunRecord)
  | corrupt
deriving DecidableEq

namespace Meta

/-- Translation of Meta._ensure_new_format (src/meta.py:10): the store state
after the migration ran. A missing file is untouched; a legacy array is
rewritten as the object form with resume_state null; the object form is left
alone; an unreadable file raises inside the try and nothing is written. -/
def ensure_new_format : Option MetaData → Option MetaData
  | none => none
  | some (.legacy log) => some (.modern none log)
  | some (.modern r log) => some (.modern r log)
  | some .corrupt => some .corrupt

/-- Translation of Meta.get_last_api_hash (src/meta.py:35): the
api_response_hash of the last audit entry, or none. -/
def get_last_api_hash : Option MetaData → Option String
  | none => none
  | some .corrupt => none
  | some (.legacy log) => log.getLast?.bind (fun e => e.api_response_hash)
  | some (.modern _ log) => log.getLast?.bind (fun e => e.api_response_hash)

/-- The entry test inside Meta.get_last_full_verification_date
(src/meta.py:71-73): full_hash_verifications (defaulted to 0) positive, and
cards_processed equal to cards_found under Python dict.get semantics (two
missing keys compare equal). -/
def isFullRunEntry (e : RunRecord) : Bool :=
  decide (0 < e.full_hash_verifications.getD 0) && decide (e.cards_processed = e.cards_found)

/-- The audit list Meta.get_last_full_verification_date iterates
(src/meta.py:67): the audit_log field of the object form, or the legacy
array itself. -/
def auditOf : MetaData → List RunRecord
  | .legacy log => log
  | .modern _ log => log
  | .corrupt => []

/-- Translation of Meta.get_last_full_verification_date (src/meta.py:57):
walk the audit log backwards and return the triggered_time of the first
entry passing isFullRunEntry; an unreadable store, no passing entry, or a
passing entry without the triggered_time key (KeyError caught by the except)
all give none. -/
def get_last_full_verification_date (store : Option MetaData) : Option String :=
  match store with
  | none => none
  | some .corrupt => none
  | some d =>
    match (auditOf d).reverse.find? isFullRunEntry with
    | some e => e.triggered_time
    | none => none

/-- Translation of Meta.save_resume_state (src/meta.py:97): read (a missing
file becomes the empty object form), coerce a legacy array to the object
form, overwrite resume_state, write back. An unreadable file raises and
nothing is written. -/
def save_resume_state (store : Option MetaData) (rs : ResumeState) : Option MetaData :=
  match store with
  | none => some (.modern (some rs) [])
  | some (.legacy log) => some (.modern (some rs) log)
  | some (.modern _ log) => some (.modern (some rs) log)
  | some .corrupt => some .corrupt

/-- Translation of Meta.clear_resume_state (src/meta.py:126): a missing file
is untouched; otherwise coerce to the object form, null the resume_state and
write back. An unreadable file raises and nothing is written. -/
def clear_resume_state : Option MetaData → Option MetaData
  | none => none
  | some (.legacy log) => some (.modern none log)
  | some (.modern _ log) => some (.modern none log)
  | some .corrupt => some .corrupt

/-- Translation of Meta.update (src/meta.py:148): read (missing or unreadable
becomes the empty object form), coerce a legacy array to the object form,
append the entry to audit_log, write back. -/
def update : Option MetaData → RunRecord → Option MetaData
  | none, e => some (.modern none [e])
  | some (.legacy log), e => some (.modern none (log ++ [e]))
  | some (.modern r log), e => some (.modern r (log ++ [e]))
  | some .corrupt, e => some (.modern none [e])

end Meta

/-- One catalog entity as the orchestrator sees it: its name and what
Card.sync would do for it in this run (none models a raised exception,
some b a normal return of b). -/
structure CardEnv where
  name : String
  outcome : Option Bool
deriving DecidableEq

namespace DownloadSession

/-- Translation of DownloadSession.__should_do_full_verification
(src/download_session.py:75). parseIso abstracts datetime.fromisoformat,
returning the parsed time in seconds or none when parsing raises; now is
datetime.now() in seconds; the days attribute of the timedelta is the
floor of the difference over 86400 seconds. -/
def should_do_full_verification (parseIso : String → Option Int)
    (last_full_check : Option String) (now : Int) : Bool :=
  match last_full_check with
  | none => true
  | some s =>
    if s = "" then true
    else
      match parseIso s with
      | none => true
      | some last_date => decide (28 ≤ (now - last_date).fdiv 86400)

/-- Translation of DownloadSession.__process_single_card
(src/download_session.py:90): any exception is caught and the card yields
none; otherwise the card's name if its sync reported an update. -/
def process_single_card (c : CardEnv) : Option String :=
  match c.outcome with
  | none => none
  | some card_saved => if card_saved then some c.name else none

/-- Translation of DownloadSession.__process_batch
(src/download_session.py:103): gather the per-card results in order and drop
the none entries. -/
def process_batch (batch : List CardEnv) : List String :=
  (batch.map process_single_card).filterMap id

/-- The sample size of DownloadSession.start (src/download_session.py:128):
max(int(card_count * 0.05), 10), with int(n * 0.05) rendered as n / 20. -/
def sampleSizeOf (n : Nat) : Nat := max (n / 20) 10

/-- Translation of the loop of DownloadSession.__verify_sample_cards
(src/download_session.py:66-72): sequential sync of the drawn sample with
force_full_check true and no exception handler, so a raised exception aborts
the whole run (none); otherwise the names of the updated cards in order. -/
def verify_sample_cards : List CardEnv → Option (List String)
  | [] => some []
  | c :: rest =>
    match c.outcome with
    | none => none
    | some saved =>
      match verify_sample_cards rest with
      | none => none
      | some updated => some (if saved then c.name :: updated else updated)

/-- Python range(0, stop, step) (src/download_session.py:159); a zero step
raises ValueError. -/
def pyRange (stop step : Nat) : Option (List Nat) :=
  if step = 0 then none
  else some ((List.range ((stop + step - 1) / step)).map (fun i => i * step))

/-- The batch slices card_info[i:i+batch_size] taken by the loop of
DownloadSession.start (src/download_session.py:159-160). -/
def fullSyncBatches (cards : List CardEnv) (batch_size : Nat) :
    Option (List (List CardEnv)) :=
  (pyRange cards.length batch_size).map
    (fun idxs => idxs.map (fun i => (cards.drop i).take batch_size))

/-- The batch loop of DownloadSession.start (src/download_session.py:159-173):
per batch, extend the updated names, add the batch length to the processed
count and (when forcing) to the full-hash-check count, and break once the
updated count reaches cards_to_download. Returns (total_processed,
full_hash_checks, all_updated_cards). -/
def runBatches (force_full_check : Bool) (cards_to_download : Nat) :
    List (List CardEnv) → Nat → Nat → List String → Nat × Nat × List String
  | [], total_processed, full_hash_checks, all_updated =>
    (total_processed, full_hash_checks, all_updated)
  | batch :: rest, total_processed, full_hash_checks, all_updated =>
    let batch_updated := process_batch batch
    let all_updated2 := all_updated ++ batch_updated
    let total_processed2 := total_processed + batch.length
    let full_hash_checks2 :=
      if force_full_check then full_hash_checks + batch.length else full_hash_checks
    if cards_to_download ≤ all_updated2.length then
      (total_processed2, full_hash_checks2, all_updated2)
    else
      runBatches force_full_check cards_to_download rest
        total_processed2 full_hash_checks2 all_updated2

/-- Environment of one DownloadSession.start run: the meta.json content at
start, the fetched catalog with per-card sync outcomes, the random sample
that would be drawn on the sample path, the listing hash, the abstracted
date parser and clock, the record timestamps, and the settings. -/
structure StartEnv where
  store : Option MetaData
  cards : List CardEnv
  sample : List CardEnv
  api_response_hash : String
  parseIso : String → Option Int
  now : Int
  start_time : String
  end_time : String
  time_taken : String
  batch_size : Nat
  download_count : Option Nat

/-- The api_unchanged flag computed in DownloadSession.__get_card_info
(src/download_session.py:40-50): the last recorded listing hash equals the
current one. -/
def apiUnchanged (env : StartEnv) : Bool :=
  decide (Meta.get_last_api_hash (Meta.ensure_new_format env.store) =
    some env.api_response_hash)

/-- The force_full_check flag of DownloadSession.start
(src/download_session.py:117), via __should_do_full_verification reading the
ledger migrated by the Meta constructor. -/
def forceFull (env : StartEnv) : Bool :=
  should_do_full_verification env.parseIso
    (Meta.get_last_full_verification_date (Meta.ensure_new_format env.store)) env.now

/-- The ledger mutations a run can perform. -/
inductive LedgerOp where
  | saveResume (rs : ResumeState)
  | clearResume
  | appendRecord (r : RunRecord)
deriving DecidableEq

/-- Outcome of one DownloadSession.start run: the meta.json content after the
run, the ledger mutations performed in order, and the audit entry written. -/
structure RunResult where
  finalStore : Option MetaData
  ops : List LedgerOp
  record : RunRecord
deriving DecidableEq

/-- Translation of DownloadSession.start (src/download_session.py:110-186).
none models a run that raises: an exception in the sample loop, or a zero
batch size. On the sample path the audit entry records sample_size in both
cards_processed and full_hash_verifications; on the full path it records the
loop counters. The only ledger mutation either path performs is the final
Meta.update append. -/
def start (env : StartEnv) : Option RunResult :=
  let store1 := Meta.ensure_new_format env.store
  if apiUnchanged env && !forceFull env then
    let sample_size := sampleSizeOf env.cards.length
    match verify_sample_cards env.sample with
    | none => none
    | some updated_cards =>
      let entry : RunRecord :=
        { triggered_time := some env.start_time
          completed_time := some env.end_time
          time_taken := some env.time_taken
          cards_processed := some (sample_size : Int)
          cards_found := some (env.cards.length : Int)
          cards_updated := some (updated_cards.length : Int)
          updated_cards := some updated_cards
          api_response_hash := some env.api_response_hash
          api_unchanged := some true
          full_hash_verifications := some (sample_size : Int) }
      some ⟨Meta.update store1 entry, [LedgerOp.appendRecord entry], entry⟩
  else
    match fullSyncBatches env.cards env.batch_size with
    | none => none
    | some batches =>
      let res := runBatches (forceFull env) (env.download_count.getD env.cards.length)
        batches 0 0 []
      let entry : RunRecord :=
        { triggered_time := some env.start_time
          completed_time := some env.end_time
          time_taken := some env.time_taken
          cards_processed := some (res.1 : Int)
          cards_found := some (env.cards.length : Int)
          cards_updated := some (res.2.2.length : Int)
          updated_cards := some res.2.2
          api_response_hash := some env.api_response_hash
          api_unchanged := some (apiUnchanged env)
          full_hash_verifications := some (res.2.1 : Int) }
      some ⟨Meta.update store1 entry, [LedgerOp.appendRecord entry], entry⟩

end DownloadSession

/-- The resume_state visible in a store. -/
def resumeStateOf : Option MetaData → Option ResumeState
  | some (.modern r _) => r
  | _ => none

/-! ## Concrete inputs for the claim theorems -/

/-- Concrete verifier environment: the stored signature matches the local
content but not the remote content. -/
def envC1 : VerifyEnv :=
  { localExists := true, hashExists := true, storedHash := some [0],
    localContent := [0], remoteContent := [1], rangeResponse := none }

/-- A payload whose published id is 1. -/
def payloadC2 : CardPayload := { id := 1, name := "X", rest := [] }

/-- Initial filesystem for the download theorems: an old image and an old
signature are in place, no temporaries. -/
def fsC8 : Card.FS :=
  { image := some [0], hashFile := some [9], tempImage := none, tempHash := none }

/-- A concrete ISO parser for instantiating the scheduling theorem: one known
date string parsing to time 0, everything else unparseable. -/
def parseIsoW : String → Option Int :=
  fun s => if s = "2020-01-01" then some 0 else none

/-- Audit-entry literal with the fields the ledger queries consult. -/
def mkRecord (tt : Option String) (cp cf fhv : Option Int) : RunRecord :=
  { triggered_time := tt, completed_time := none, time_taken := none,
    cards_processed := cp, cards_found := cf, cards_updated := none,
    updated_cards := none, api_response_hash := none, api_unchanged := none,
    full_hash_verifications := fhv }

/-- A complete full-verification entry: all cards processed, checks done. -/
def eFullC6 : RunRecord := mkRecord (some "T") (some 5) (some 5) (some 3)

/-- A sample-run entry: checks done but only part of the catalog processed. -/
def eSampleC6 : RunRecord := mkRecord (some "S") (some 10) (some 100) (some 10)

/-- Remote content: 8192 zero bytes then a zero byte. -/
def remoteC7 : Bytes := List.replicate 8192 0 ++ [0]

/-- Local content: the same first 8192 bytes, then a different byte. -/
def localC7 : Bytes := List.replicate 8192 0 ++ [1]

/-- Fast-path environment whose remote and local content agree on the first
8 KiB and differ beyond it. -/
def envC7 : VerifyEnv :=
  { localExists := true, hashExists := true, storedHash := some [7],
    localContent := localC7, remoteContent := remoteC7,
    rangeResponse := some (206, remoteC7.take 8192) }

/-- A stale checkpoint left in the ledger by an earlier interrupted run. -/
def rsStale : ResumeState :=
  { last_processed_index := 40, api_hash_at_resume := "old", target_updates := 100,
    updates_found := 3, session_started := "sess" }

/-- One catalog card whose sync reports an update. -/
def cardC3 : CardEnv := { name := "A", outcome := some true }

/-- A full-sync run: empty audit log, so the listing hash comparison fails
and full verification is forced, while a stale checkpoint sits in the
store. -/
def envC3 : DownloadSession.StartEnv :=
  { store := some (.modern (some rsStale) []), cards := [cardC3], sample := [],
    api_response_hash := "h1", parseIso := fun _ => none, now := 0,
    start_time := "t0", end_time := "t1", time_taken := "d",
    batch_size := 10, download_count := none }

/-- The run result of envC3. -/
def resultC3 : DownloadSession.RunResult :=
  (DownloadSession.start envC3).getD ⟨none, [], default⟩

/-- A card whose sync raises. -/
def cardFailC9 : CardEnv := { name := "F", outcome := none }

/-- A card whose sync reports an update. -/
def cardOkC9 : CardEnv := { name := "B", outcome := some true }

/-- A first-run environment (no ledger yet) whose catalog contains a failing
card. -/
def envC9 : DownloadSession.StartEnv :=
  { store := none, cards := [cardFailC9, cardOkC9], sample := [],
    api_response_hash := "h9", parseIso := fun _ => none, now := 0,
    start_time := "t0", end_time := "t1", time_taken := "d",
    batch_size := 10, download_count := none }

/-- A recent complete full-verification entry carrying the current listing
hash. -/
def eRecentC10 : RunRecord :=
  { mkRecord (some "2020-01-01") (some 7) (some 7) (some 2) with
      api_response_hash := some "hX" }

/-- A card whose sync reports no update. -/
def cardC10 : CardEnv := { name := "C", outcome := some false }

/-- A sample-path environment: ten catalog cards, matching listing hash, a
full verification one day ago. -/
def envC10 : DownloadSession.StartEnv :=
  { store := some (.modern none [eRecentC10]), cards := List.replicate 10 cardC10,
    sample := List.replicate 10 cardC10,
    api_response_hash := "hX", parseIso := parseIsoW, now := 86400,
    start_time := "t0", end_time := "t1", time_taken := "d",
    batch_size := 10, download_count := none }

/-! ## Helper lemmas -/

theorem Meta.ensure_new_format_idem (s : Option MetaData) :
    Meta.ensure_new_format (Meta.ensure_new_format s) = Meta.ensure_new_format s := by
  rcases s with _ | d
  · rfl
  · cases d <;> rfl

theorem Meta.resumeStateOf_update (s : Option MetaData) (e : RunRecord) :
    resumeStateOf (Meta.update s e) = resumeStateOf (Meta.ensure_new_format s) := by
  rcases s with _ | d
  · rfl
  · cases d <;> rfl

/-! ## Claim C1 -/


/-- Claim C1 counterexample: with the force-full-check flag set, the stored
signature equal to the local file's signature and different from the remote
content's signature, the verifier returns must-fetch = false, although the
claim (comparing against the remote content's full signature) demands
must-fetch = true. -/
theorem C1_forced_check_counterexample :
    verify_image_with_range_request id envC1 true = (false, true)
    ∧ id envC1.remoteContent ≠ [0] ∧ envC1.storedHash = some [0] := by
  decide

/-- Claim C1 (amended): for an artifact whose local file and signature file
both exist and whose stored signature is readable, the forced check computes
the full signature of the local file and compares it to the stored one —
match gives (false, true), mismatch gives (true, true) — and the result does
not depend on the remote content or on the range response (nothing is
fetched). -/
theorem C1_forced_check_amended (hash : Bytes → Bytes) (env : VerifyEnv) (s : Bytes)
    (h1 : env.localExists = true) (h2 : env.hashExists = true)
    (h3 : env.storedHash = some s) :
    (hash env.localContent = s →
      verify_image_with_range_request hash env true = (false, true))
    ∧ (hash env.localContent ≠ s →
      verify_image_with_range_request hash env true = (true, true))
    ∧ ∀ rc rr, verify_image_with_range_request hash
        { env with remoteContent := rc, rangeResponse := rr } true =
        verify_image_with_range_request hash env true := by
  refine ⟨fun h => ?_, fun h => ?_, fun rc rr => ?_⟩
  · simp [verify_image_with_range_request, compute_file_hash, h1, h2, h3, h]
  · simp [verify_image_with_range_request, compute_file_hash, h1, h2, h3, h]
  · simp [verify_image_with_range_request, compute_file_hash, h1, h2, h3]

/-- Claim C1 amended theorem instantiated: the forced check on envC1 reports
no fetch needed with the full-signature flag set. -/
theorem C1_forced_check_amended_witness :
    verify_image_with_range_request id envC1 true = (false, true) :=
  (C1_forced_check_amended id envC1 [0] rfl rfl rfl).1 (by decide)

/-! ## Claim C2 -/


/-- Claim C2: the metadata step is claimed to compare the payload with the
identity substituted into the id field against the stored JSON and to write
that substituted payload, so that after a write the stored id equals the
identity. The code compares and writes the unmodified payload: syncing the
id-1 payload for identity 2 stores a payload whose id is still 1, and it
rewrites even when the stored JSON already equals the substituted payload. -/
theorem C2_sync_card_info_id_bug :
    (Card.sync_card_info_id payloadC2 2 none).1 = some payloadC2
    ∧ payloadC2.id = 1
    ∧ Card.sync_card_info_id payloadC2 2 (some { payloadC2 with id := 2 }) =
        (some payloadC2, true) := by
  decide

/-! ## Claim C5 -/

/-- Claim C5: loading a store in the legacy array form rewrites it as the
object form with a null resume_state and the same audit entries in order;
the migration leaves an already-upgraded store unchanged and is idempotent
on every store. -/
theorem C5_ledger_migration (log log2 : List RunRecord) (r : Option ResumeState)
    (s : Option MetaData) :
    Meta.ensure_new_format (some (.legacy log)) = some (.modern none log)
    ∧ Meta.ensure_new_format (some (.modern r log2)) = some (.modern r log2)
    ∧ Meta.ensure_new_format (Meta.ensure_new_format s) = Meta.ensure_new_format s :=
  ⟨rfl, rfl, Meta.ensure_new_format_idem s⟩

/-! ## Claim C8 -/


/-- Claim C8 counterexample: if the exception strikes after the content
rename but before the signature rename (three of the four steps ran), the
temporaries are removed but the final content file has already been replaced
by the new content, so it is not left as it was before the attempt, contrary
to the claim that any exception leaves both final files unchanged. -/
theorem C8_download_atomicity_counterexample :
    (Card.download_image_async id [1] (some 3) fsC8).1.image = some [1]
    ∧ fsC8.image = some [0]
    ∧ (Card.download_image_async id [1] (some 3) fsC8).1.tempImage = none
    ∧ (Card.download_image_async id [1] (some 3) fsC8).1.tempHash = none := by
  decide

/-- Claim C8 (amended): on success the content and its signature are first
written to the temporary paths — after the two temporary writes the final
files are untouched, and the signature file is still untouched after the
content rename — and the renames conclude with the final files holding the
new content and signature and no temporaries. On an exception the temporary
files are always removed, and when the exception precedes the first rename
(at most the two temporary writes ran) both final files are left exactly as
they were before the attempt. -/
theorem C8_download_atomicity (hash : Bytes → Bytes) (content : Bytes)
    (fs : Card.FS) (k : Nat) (hk : k ≤ 2) :
    Card.download_image_async hash content none fs =
      ({ image := some content, hashFile := some (hash content),
         tempImage := none, tempHash := none }, true)
    ∧ (Card.runSteps hash content 2 fs).image = fs.image
    ∧ (Card.runSteps hash content 2 fs).hashFile = fs.hashFile
    ∧ (Card.runSteps hash content 3 fs).hashFile = fs.hashFile
    ∧ (∀ j, (Card.download_image_async hash content (some j) fs).1.tempImage = none
        ∧ (Card.download_image_async hash content (some j) fs).1.tempHash = none)
    ∧ Card.download_image_async hash content (some k) fs =
        ({ fs with tempImage := none, tempHash := none }, false) := by
  refine ⟨rfl, rfl, rfl, rfl, fun j => ⟨rfl, rfl⟩, ?_⟩
  interval_cases k <;> rfl

/-- Claim C8 amended theorem instantiated on fsC8: a successful download
installs content and signature, and an exception right before the first
rename leaves fsC8 with only the temporaries cleared. -/
theorem C8_download_atomicity_witness :
    Card.download_image_async id [1] none fsC8 =
      ({ image := some [1], hashFile := some [1], tempImage := none, tempHash := none }, true)
    ∧ Card.download_image_async id [1] (some 2) fsC8 =
      ({ fsC8 with tempImage := none, tempHash := none }, false) :=
  ⟨(C8_download_atomicity id [1] fsC8 2 (by decide)).1,
   (C8_download_atomicity id [1] fsC8 2 (by decide)).2.2.2.2.2⟩

/-! ## Claim C4 -/

/-- Claim C4: the full-verification decision is true exactly when the ledger
has no complete full-verification record, or the recorded timestamp cannot be
parsed, or it lies 28 or more whole days in the past; in particular a record
from 27 days ago gives false and one from 28 days ago gives true. -/
theorem C4_full_verification_decision (parseIso : String → Option Int) (now : Int)
    (h0 : parseIso "" = none) :
    (∀ lfc, DownloadSession.should_do_full_verification parseIso lfc now = true ↔
      (lfc = none ∨ ∃ s, lfc = some s ∧ (parseIso s = none ∨
        ∃ t, parseIso s = some t ∧ 28 ≤ (now - t).fdiv 86400)))
    ∧ ∀ s t, parseIso s = some t →
        DownloadSession.should_do_full_verification parseIso (some s) (t + 27 * 86400) = false
        ∧ DownloadSession.should_do_full_verification parseIso (some s) (t + 28 * 86400) = true := by
  constructor
  · intro lfc
    rcases lfc with _ | s
    · simp [DownloadSession.should_do_full_verification]
    · simp only [DownloadSession.should_do_full_verification]
      by_cases hs : s = ""
      · subst hs
        simp [h0]
      · rw [if_neg hs]
        rcases hp : parseIso s with _ | t
        · simp [hp]
        · simp [hp]
  · intro s t hp
    have hs : s ≠ "" := by
      intro h
      rw [h, h0] at hp
      exact Option.noConfusion hp
    have e27 : (t + 27 * 86400 : Int) - t = 27 * 86400 := by ring
    have e28 : (t + 28 * 86400 : Int) - t = 28 * 86400 := by ring
    constructor
    · simp only [DownloadSession.should_do_full_verification, if_neg hs, hp, e27]
      decide
    · simp only [DownloadSession.should_do_full_verification, if_neg hs, hp, e28]
      decide


/-- Claim C4 theorem instantiated: with a record parsed to time 0, a clock 27
days later leaves the decision false, 28 days later makes it true, and an
absent record makes it true. -/
theorem C4_full_verification_decision_witness :
    DownloadSession.should_do_full_verification parseIsoW (some "2020-01-01")
      ((0 : Int) + 27 * 86400) = false
    ∧ DownloadSession.should_do_full_verification parseIsoW (some "2020-01-01")
      ((0 : Int) + 28 * 86400) = true
    ∧ DownloadSession.should_do_full_verification parseIsoW none 0 = true := by
  have h := C4_full_verification_decision parseIsoW 0 (by decide)
  have h2 := h.2 "2020-01-01" 0 (by decide)
  exact ⟨h2.1, h2.2, (h.1 none).mpr (Or.inl rfl)⟩

/-! ## Claim C6 -/

/-- Unfolding of the date lookup over the audit list of a readable store. -/
theorem Meta.get_last_full_verification_date_eq (d : MetaData) :
    Meta.get_last_full_verification_date (some d) =
      match (Meta.auditOf d).reverse.find? Meta.isFullRunEntry with
      | some e => e.triggered_time
      | none => none := by
  cases d <;> rfl

/-- Claim C6: the last full-verification date is the triggered_time of the
most recent audit entry with positive full_hash_verifications and
cards_processed equal to cards_found; it is none for a missing or unreadable
store or when no entry passes both conjuncts, and any returned date comes
from an entry passing both. -/
theorem C6_last_full_verification_date :
    Meta.get_last_full_verification_date none = none
    ∧ Meta.get_last_full_verification_date (some .corrupt) = none
    ∧ (∀ r log, (∀ e ∈ log, Meta.isFullRunEntry e = false) →
        Meta.get_last_full_verification_date (some (.modern r log)) = none)
    ∧ (∀ r l1 e l2, Meta.isFullRunEntry e = true →
        (∀ x ∈ l2, Meta.isFullRunEntry x = false) →
        Meta.get_last_full_verification_date (some (.modern r (l1 ++ e :: l2))) =
          e.triggered_time)
    ∧ ∀ store t, Meta.get_last_full_verification_date store = some t →
        ∃ d, store = some d ∧ ∃ e ∈ Meta.auditOf d,
          Meta.isFullRunEntry e = true ∧ e.triggered_time = some t := by
  refine ⟨rfl, rfl, ?_, ?_, ?_⟩
  · intro r log h
    have hnone : log.reverse.find? Meta.isFullRunEntry = none := by
      rw [List.find?_eq_none]
      intro x hx
      simp [h x (List.mem_reverse.mp hx)]
    rw [Meta.get_last_full_verification_date_eq]
    simp [Meta.auditOf, hnone]
  · intro r l1 e l2 he hl2
    have hrev : (l1 ++ e :: l2).reverse = l2.reverse ++ e :: l1.reverse := by
      simp [List.reverse_append]
    have hnone : l2.reverse.find? Meta.isFullRunEntry = none := by
      rw [List.find?_eq_none]
      intro x hx
      simp [hl2 x (List.mem_reverse.mp hx)]
    rw [Meta.get_last_full_verification_date_eq]
    simp [Meta.auditOf, hrev, List.find?_append, hnone, List.find?_cons_of_pos _ he]
  · intro store t h
    rcases store with _ | d
    · exact absurd h (by simp [Meta.get_last_full_verification_date])
    · rw [Meta.get_last_full_verification_date_eq] at h
      rcases hfind : (Meta.auditOf d).reverse.find? Meta.isFullRunEntry with _ | e
      · rw [hfind] at h
        exact absurd h (by simp)
      · rw [hfind] at h
        exact ⟨d, rfl, e, List.mem_reverse.mp (List.mem_of_find?_eq_some hfind),
          List.find?_some hfind, h⟩


/-- Claim C6 theorem instantiated: with a passing entry followed by a
sample entry, the passing entry's date is returned; with only the sample
entry, none is. -/
theorem C6_last_full_verification_date_witness :
    Meta.get_last_full_verification_date (some (.modern none [eFullC6, eSampleC6])) = some "T"
    ∧ Meta.get_last_full_verification_date (some (.modern none [eSampleC6])) = none := by
  refine ⟨?_, ?_⟩
  · have h := C6_last_full_verification_date.2.2.2.1 none [] eFullC6 [eSampleC6]
      (by decide) (by decide)
    simpa [eFullC6, mkRecord] using h
  · exact C6_last_full_verification_date.2.2.1 none [eSampleC6] (by decide)

/-! ## Claim C7 -/

/-- Claim C7: on the fast path (both files present, readable stored
signature, no forced check, range status 200 or 206, body the first 8 KiB of
the remote resource) the verifier compares the signature of the returned
prefix bytes against the signature of the same byte count read from the local
file: mismatch gives (true, false), match gives (false, false); in particular
whenever the first 8 KiB of remote and local content agree the result is
unchanged, whatever the bytes beyond 8 KiB. -/
theorem C7_fast_path (hash : Bytes → Bytes) (env : VerifyEnv) (s : Bytes)
    (st : Nat) (body : Bytes)
    (h1 : env.localExists = true) (h2 : env.hashExists = true)
    (h3 : env.storedHash = some s)
    (h4 : env.rangeResponse = some (st, body))
    (h5 : st = 200 ∨ st = 206)
    (h6 : body = env.remoteContent.take 8192) :
    (hash body = hash (env.localContent.take body.length) →
      verify_image_with_range_request hash env false = (false, false))
    ∧ (hash body ≠ hash (env.localContent.take body.length) →
      verify_image_with_range_request hash env false = (true, false))
    ∧ (env.remoteContent.take 8192 = env.localContent.take 8192 →
      verify_image_with_range_request hash env false = (false, false)) := by
  have hst : ¬(st ≠ 200 ∧ st ≠ 206) := by
    rcases h5 with h | h <;> simp [h]
  refine ⟨fun h => ?_, fun h => ?_, fun hpre => ?_⟩
  · simp [verify_image_with_range_request, compute_partial_hash, h1, h2, h3, h4, hst, h]
  · simp [verify_image_with_range_request, compute_partial_hash, h1, h2, h3, h4, hst, h]
  · have hlen : body.length ≤ 8192 := by
      rw [h6, List.length_take]
      exact Nat.min_le_left _ _
    have hbl : body = env.localContent.take 8192 := h6.trans hpre
    have hb : env.localContent.take body.length = body := by
      calc env.localContent.take body.length
          = env.localContent.take (min body.length 8192) := by
            rw [Nat.min_eq_left hlen]
        _ = (env.localContent.take 8192).take body.length :=
            (List.take_take body.length 8192 env.localContent).symm
        _ = body.take body.length := by rw [← hbl]
        _ = body := List.take_length body
    simp [verify_image_with_range_request, compute_partial_hash, h1, h2, h3, h4, hst, hb]


/-- Claim C7 theorem instantiated: remote and local contents agreeing on the
first 8 KiB but differing at byte 8193 make the fast path answer unchanged. -/
theorem C7_fast_path_witness :
    verify_image_with_range_request id envC7 false = (false, false)
    ∧ remoteC7.take 8192 = localC7.take 8192
    ∧ remoteC7.drop 8192 ≠ localC7.drop 8192 := by
  have hlen : (List.replicate 8192 (0 : Nat)).length = 8192 := List.length_replicate 8192 0
  have htr : remoteC7.take 8192 = List.replicate 8192 0 := List.take_left' hlen
  have htl : localC7.take 8192 = List.replicate 8192 0 := List.take_left' hlen
  have hpre : remoteC7.take 8192 = localC7.take 8192 := htr.trans htl.symm
  refine ⟨?_, hpre, ?_⟩
  · exact (C7_fast_path id envC7 [7] 206 (remoteC7.take 8192)
      rfl rfl rfl rfl (Or.inr rfl) rfl).2.2 hpre
  · show (List.replicate 8192 0 ++ [0]).drop 8192 ≠ (List.replicate 8192 0 ++ [1]).drop 8192
    rw [List.drop_left' hlen, List.drop_left' hlen]
    decide

/-! ## Claim C3 -/

/-- Claim C3: the claim says a resume checkpoint is written after each
processed batch of a full run and cleared on completion, listing change or
forced verification. A run of the translated orchestrator performs exactly
one ledger mutation — the final audit append — never a checkpoint save or
clear, and the resume state of the (migrated) store is the same after the
run as before it. -/
theorem C3_no_resume_checkpoint (env : DownloadSession.StartEnv)
    (r : DownloadSession.RunResult)
    (h : DownloadSession.start env = some r) :
    r.ops = [DownloadSession.LedgerOp.appendRecord r.record]
    ∧ resumeStateOf r.finalStore = resumeStateOf (Meta.ensure_new_format env.store)
    ∧ ∀ op ∈ r.ops, (∀ rs, op ≠ DownloadSession.LedgerOp.saveResume rs)
        ∧ op ≠ DownloadSession.LedgerOp.clearResume := by
  unfold DownloadSession.start at h
  split at h
  · split at h
    · exact Option.noConfusion h
    · have h := Option.some.inj h
      subst h
      refine ⟨rfl, ?_, ?_⟩
      · exact (Meta.resumeStateOf_update (Meta.ensure_new_format env.store) _).trans
          (congrArg resumeStateOf (Meta.ensure_new_format_idem env.store))
      · intro op hop
        simp only [List.mem_singleton] at hop
        subst hop
        exact ⟨fun rs => by simp, by simp⟩
  · split at h
    · exact Option.noConfusion h
    · have h := Option.some.inj h
      subst h
      refine ⟨rfl, ?_, ?_⟩
      · exact (Meta.resumeStateOf_update (Meta.ensure_new_format env.store) _).trans
          (congrArg resumeStateOf (Meta.ensure_new_format_idem env.store))
      · intro op hop
        simp only [List.mem_singleton] at hop
        subst hop
        exact ⟨fun rs => by simp, by simp⟩


/-- Claim C3 theorem instantiated: the one-batch full-sync run over envC3
performs only the audit append and leaves the stale checkpoint in place. -/
theorem C3_no_resume_checkpoint_witness :
    DownloadSession.start envC3 = some resultC3
    ∧ resultC3.ops = [DownloadSession.LedgerOp.appendRecord resultC3.record]
    ∧ resumeStateOf resultC3.finalStore = some rsStale := by
  have h : DownloadSession.start envC3 = some resultC3 := rfl
  refine ⟨h, (C3_no_resume_checkpoint envC3 resultC3 h).1, ?_⟩
  rw [(C3_no_resume_checkpoint envC3 resultC3 h).2.1]
  rfl

/-! ## Claim C9 -/

/-- Claim C9: an exception while synchronizing one card is caught at the
per-card boundary and yields none; the card is excluded from the updated
names while the rest of the batch is unaffected; and a full-sync run (with a
positive batch size) still completes and performs its ledger append,
whatever the per-card outcomes. -/
theorem C9_per_card_failure (pre post : List CardEnv) (c : CardEnv)
    (hc : c.outcome = none) :
    DownloadSession.process_single_card c = none
    ∧ DownloadSession.process_batch (pre ++ c :: post) =
        DownloadSession.process_batch pre ++ DownloadSession.process_batch post
    ∧ ∀ env : DownloadSession.StartEnv, 0 < env.batch_size →
        (DownloadSession.apiUnchanged env && !DownloadSession.forceFull env) = false →
        ∃ r, DownloadSession.start env = some r
          ∧ r.ops = [DownloadSession.LedgerOp.appendRecord r.record] := by
  have h1 : DownloadSession.process_single_card c = none := by
    simp [DownloadSession.process_single_card, hc]
  refine ⟨h1, ?_, ?_⟩
  · simp [DownloadSession.process_batch, h1]
  · intro env hbs hcond
    have hb : DownloadSession.fullSyncBatches env.cards env.batch_size =
        some ((List.range ((env.cards.length + env.batch_size - 1) / env.batch_size)).map
          (fun i => (env.cards.drop (i * env.batch_size)).take env.batch_size)) := by
      simp [DownloadSession.fullSyncBatches, DownloadSession.pyRange,
        Nat.pos_iff_ne_zero.mp hbs, Function.comp]
    simp [DownloadSession.start, hcond, hb]


/-- Claim C9 theorem instantiated: the failing card drops out of the batch,
yields none by itself, and the run over the catalog containing it still
produces a result. -/
theorem C9_per_card_failure_witness :
    DownloadSession.process_batch ([cardOkC9] ++ cardFailC9 :: [cardOkC9]) = ["B", "B"]
    ∧ DownloadSession.process_single_card cardFailC9 = none
    ∧ (DownloadSession.start envC9).isSome = true := by
  have h := C9_per_card_failure [cardOkC9] [cardOkC9] cardFailC9 rfl
  obtain ⟨r, hr, -⟩ := h.2.2 envC9 (by decide) (by decide)
  exact ⟨h.2.1.trans (by decide), h.1, by rw [hr]; rfl⟩

/-! ## Claim C10 -/

/-- Claim C10: on the sample path the audit record stores sample_size =
max(total / 20, 10) in both cards_processed and full_hash_verifications even
though only min(sample_size, total) cards are synchronized; for a catalog of
fewer than 10 cards the recorded cards_processed exceeds cards_found, and for
a catalog of exactly 10 cards the record passes the ledger's
complete-full-verification test. -/
theorem C10_sample_record (env : DownloadSession.StartEnv) (updated : List String)
    (hcond : (DownloadSession.apiUnchanged env && !DownloadSession.forceFull env) = true)
    (hsample : DownloadSession.verify_sample_cards env.sample = some updated)
    (hlen : env.sample.length =
      min (DownloadSession.sampleSizeOf env.cards.length) env.cards.length) :
    (DownloadSession.start env).map (fun r => r.record.cards_processed) =
      some (some (DownloadSession.sampleSizeOf env.cards.length : Int))
    ∧ (DownloadSession.start env).map (fun r => r.record.full_hash_verifications) =
      some (some (DownloadSession.sampleSizeOf env.cards.length : Int))
    ∧ (DownloadSession.start env).map (fun r => r.record.cards_found) =
      some (some (env.cards.length : Int))
    ∧ (env.cards.length < 10 → env.sample.length = env.cards.length
        ∧ (env.cards.length : Int) < (DownloadSession.sampleSizeOf env.cards.length : Int))
    ∧ (env.cards.length = 10 →
        (DownloadSession.start env).map (fun r => Meta.isFullRunEntry r.record) = some true) := by
  refine ⟨?_, ?_, ?_, ?_, ?_⟩
  · simp [DownloadSession.start, hcond, hsample]
  · simp [DownloadSession.start, hcond, hsample]
  · simp [DownloadSession.start, hcond, hsample]
  · intro hlt
    have hss : DownloadSession.sampleSizeOf env.cards.length = 10 := by
      unfold DownloadSession.sampleSizeOf
      omega
    refine ⟨?_, ?_⟩
    · rw [hlen, hss]
      omega
    · rw [hss]
      exact_mod_cast hlt
  · intro h10
    simp [DownloadSession.start, hcond, hsample, Meta.isFullRunEntry, h10,
      DownloadSession.sampleSizeOf]


/-- Claim C10 theorem instantiated: the ten-card sample run records
cards_processed 10 and passes the complete-full-verification test. -/
theorem C10_sample_record_witness :
    (DownloadSession.start envC10).map (fun r => r.record.cards_processed) = some (some 10)
    ∧ (DownloadSession.start envC10).map (fun r => Meta.isFullRunEntry r.record) = some true := by
  have h := C10_sample_record envC10 [] (by decide) (by decide) (by decide)
  refine ⟨?_, h.2.2.2.2 (by decide)⟩
  simpa [DownloadSession.sampleSizeOf] using h.1

/-- Claim C5 theorem instantiated on a one-entry legacy store: the migration
produces the object form with the entry preserved, and a second migration is
a no-op. -/
theorem C5_ledger_migration_witness :
    Meta.ensure_new_format (some (.legacy [eSampleC6])) = some (.modern none [eSampleC6])
    ∧ Meta.ensure_new_format (Meta.ensure_new_format (some (.legacy [eSampleC6]))) =
      Meta.ensure_new_format (some (.legacy [eSampleC6])) :=
  ⟨(C5_ledger_migration [eSampleC6] [] none (some (.legacy [eSampleC6]))).1,
   (C5_ledger_migration [eSampleC6] [] none (some (.legacy [eSampleC6]))).2.2⟩
